import Mathlib

/-!
# Verification of the google-docs-mcp batch mutation engine

Shallow embedding of the index-addressed batch mutation engine of the
repository (src/googleSheetsApiHelpers.ts and src/tools/docs/editTableCell.ts),
together with proofs of the specification claims about it.

JavaScript numbers are modelled as `Int` (all arithmetic in the embedded code
is exact integer arithmetic except the final `/255` color normalization, which
is modelled as `Rat`); strings as Lean `String`; `undefined`/`null` as
`Option`; thrown `UserError`s as `Except` errors.
-/

/-! ## JavaScript primitive models -/

/-- JavaScript truthiness of an optional string: `undefined`, `null` and the
empty string are falsy. -/
def jsTruthyStr : Option String → Bool
  | none => false
  | some s => !(s == "")

/-- ASCII decimal digit, as tested by the character classes `\d` / `[0-9]`. -/
def isAsciiDigit (c : Char) : Bool :=
  48 ≤ c.toNat && c.toNat ≤ 57

/-- ASCII letter, as tested by the case-insensitive class `[A-Z]` with `/i`. -/
def isAsciiLetter (c : Char) : Bool :=
  (65 ≤ c.toNat && c.toNat ≤ 90) || (97 ≤ c.toNat && c.toNat ≤ 122)

/-- Model of JavaScript `String.prototype.toUpperCase` for the ASCII strings
handled by this engine (per-character upper-casing). -/
def jsToUpperCase (s : String) : String :=
  ⟨s.data.map Char.toUpper⟩

/-- Numeric value of a non-empty all-digit capture group under
`parseInt(g, 10)`. -/
def digitsToNat (l : List Char) : Nat :=
  l.foldl (fun a c => a * 10 + (c.toNat - 48)) 0

/-- ASCII hexadecimal digit, as consumed by `parseInt(s, 16)`. -/
def isHexDigit (c : Char) : Bool :=
  (48 ≤ c.toNat && c.toNat ≤ 57) || (65 ≤ c.toNat && c.toNat ≤ 70) ||
    (97 ≤ c.toNat && c.toNat ≤ 102)

/-- Value of an ASCII hexadecimal digit. -/
def hexDigitVal (c : Char) : Nat :=
  if c.toNat ≤ 57 then c.toNat - 48
  else if c.toNat ≤ 70 then c.toNat - 55
  else c.toNat - 87

/-- White-space characters skipped by `parseInt` (the ASCII ones; the engine
only ever feeds it ASCII text). -/
def jsWhitespace (c : Char) : Bool :=
  c == ' ' || c == '\t' || c == '\n' || c == '\r' || c == '\x0b' || c == '\x0c'

/-- Model of the JavaScript builtin `parseInt(s, 16)`: skip leading
white-space, read an optional sign, skip an optional `0x`/`0X` prefix, then
take the longest prefix of hexadecimal digits; `none` models `NaN` (no digits
consumed). Trailing garbage after a valid prefix is ignored, exactly as in
ECMAScript. -/
def jsParseIntHex (s : String) : Option Int :=
  let l := s.data.dropWhile jsWhitespace
  let sign : Int := match l with
    | '-' :: _ => -1
    | _ => 1
  let l2 : List Char := match l with
    | '-' :: r => r
    | '+' :: r => r
    | _ => l
  let l3 : List Char := match l2 with
    | '0' :: c :: r => if c == 'x' || c == 'X' then r else l2
    | _ => l2
  let digs := l3.takeWhile isHexDigit
  if digs.isEmpty then none
  else some (sign * (digs.foldl (fun a c => a * 16 + hexDigitVal c) 0 : Nat))

/-- JavaScript `ToInt32`: reduce an integer into the signed 32-bit range, as
bitwise operators do before operating. -/
def toInt32 (n : Int) : Int :=
  let m := n.emod (2 ^ 32)
  if m < 2 ^ 31 then m else m - 2 ^ 32

/-- JavaScript `n >> k` (sign-propagating right shift on the int32 value,
i.e. flooring division by `2 ^ k`). -/
def jsShr (n : Int) (k : Nat) : Int :=
  Int.fdiv (toInt32 n) (2 ^ k)

/-- JavaScript `n & 255` (low byte of the two's-complement int32 value). -/
def jsAnd255 (n : Int) : Int :=
  (toInt32 n).emod 256

/-! ## Coordinate Translator (src/googleSheetsApiHelpers.ts)

`colLettersToIndex` (lines 336-343) and the column-letter loop of
`rowColToA1` (lines 42-48), `normalizeRange` (lines 57-70) and
`hexToRgb` (lines 1255-1271). -/

/-- `colLettersToIndex` (googleSheetsApiHelpers.ts:336): base-26 decode of a
column-letter string, zero-based. The source upper-cases the input and runs
`index = index * 26 + (charCodeAt(i) - 64)` over it, then subtracts one. No
input validation is performed: any string yields an integer. -/
def colLettersToIndex (col : String) : Int :=
  (col.data.foldl (fun idx c => idx * 26 + ((c.toUpper.toNat : Int) - 64)) 0) - 1

/-- The column-letter loop of `rowColToA1` (googleSheetsApiHelpers.ts:42-48),
the source's `indexToColumnLetters`: the loop state is `colNum`; each
iteration decrements it, prepends `chr(65 + colNum % 26)` and divides by 26.
The argument of this function is the current `colNum`. -/
def indexToColumnLettersLoop : Nat → List Char → List Char
  | 0, acc => acc
  | n + 1, acc => indexToColumnLettersLoop (n / 26) (Char.ofNat (65 + n % 26) :: acc)
decreasing_by exact Nat.lt_succ_of_le (Nat.div_le_self n 26)

/-- `indexToColumnLetters`: the column-letter conversion of `rowColToA1`
(googleSheetsApiHelpers.ts:35-51) for a non-negative zero-based column index
(`rowColToA1` rejects negative input before the loop; the loop starts from
`colNum = col + 1`). -/
def indexToColumnLetters (col : Nat) : String :=
  ⟨indexToColumnLettersLoop (col + 1) []⟩

/-- `normalizeRange` (googleSheetsApiHelpers.ts:57-70): a range already
containing `!` is returned unchanged; otherwise a truthy `sheetName` is
prefixed; otherwise the literal default `Sheet1!` is prefixed. -/
def normalizeRange (range : String) (sheetName : Option String) : String :=
  if range.data.contains '!' then range
  else if jsTruthyStr sheetName then (sheetName.getD "") ++ "!" ++ range
  else "Sheet1!" ++ range

/-- A color produced by `hexToRgb`: unit-interval components (the source's
floating-point divisions by 255 are exact rationals; the claims only compare
values whose binary64 representation is exact). -/
structure JsRgb where
  red : ℚ
  green : ℚ
  blue : ℚ
deriving DecidableEq, Repr

/-- `hex.startsWith('#') ? hex.slice(1) : hex`, on the character list. -/
def stripHashChar (hex : String) : String :=
  match hex.data with
  | '#' :: r => ⟨r⟩
  | _ => hex

/-- The integer part of `hexToRgb` (googleSheetsApiHelpers.ts:1255-1271):
strip an optional `#`, expand a 3-character value by digit duplication,
require length 6, feed the result to `parseInt(_, 16)` and split the integer
into the three byte values `(bigint >> 16) & 255`, `(bigint >> 8) & 255`,
`bigint & 255`. -/
def hexToRgbNum (hex : String) : Option (Int × Int × Int) :=
  if hex == "" then none
  else
    let hexClean := stripHashChar hex
    let hexClean2 :=
      if hexClean.length = 3 then
        match hexClean.data with
        | [a, b, c] => String.mk [a, a, b, b, c, c]
        | _ => hexClean
      else hexClean
    if hexClean2.length ≠ 6 then none
    else
      match jsParseIntHex hexClean2 with
      | none => none
      | some bigint =>
          some (jsAnd255 (jsShr bigint 16), jsAnd255 (jsShr bigint 8), jsAnd255 bigint)

/-- `hexToRgb` (googleSheetsApiHelpers.ts:1255-1271): the byte values of
`hexToRgbNum` normalized by the source's final `/ 255` divisions. -/
def hexToRgb (hex : String) : Option JsRgb :=
  (hexToRgbNum hex).map fun t =>
    ⟨(t.1 : ℚ) / 255, (t.2.1 : ℚ) / 255, (t.2.2 : ℚ) / 255⟩

/-! ## A1 range parsing (src/googleSheetsApiHelpers.ts)

`parseA1ToGridRange` (lines 355-402) and the nested `parseA1Range` of
`batchFormat` (lines 919-927). The JavaScript regexes are modelled by
maximal-munch scanners, which agree with the anchored regexes
`^(\d+)(?::(\d+))?$`, `^([A-Z]+)(?::([A-Z]+))?$/i` and
`^([A-Z]+)(\d+)(?::([A-Z]+)(\d+))?$/i`: a digit run cannot extend into a
letter and vice versa, so greedy scanning is exactly regex matching. -/

/-- The error taxonomy of the engine: `invalidFormat` models the
`Invalid range format` / `Invalid A1 range` UserErrors, `notFound` the
`Sheet "..." not found in spreadsheet.` UserError and `emptyDocument` the
`Spreadsheet has no sheets.` UserError. -/
inductive SheetsApiError where
  | invalidFormat (text : String)
  | notFound (sheetName : String)
  | emptyDocument
deriving DecidableEq, Repr

/-- The remote API's grid range: absent index fields model JSON fields that
are left out, which the remote system reads as unbounded. -/
structure GridRange where
  sheetId : Int
  startRowIndex : Option Int
  endRowIndex : Option Int
  startColumnIndex : Option Int
  endColumnIndex : Option Int
deriving DecidableEq, Repr

/-- Match of `^(X+)(?::(X+))?$` for a character class `p`: the common shape
of the whole-row and whole-column regexes. -/
def matchRunPair (p : Char → Bool) (l : List Char) :
    Option (List Char × Option (List Char)) :=
  let a := l.takeWhile p
  let r := l.dropWhile p
  if a.isEmpty then none
  else
    match r with
    | [] => some (a, none)
    | ':' :: b => if !b.isEmpty && b.all p then some (a, some b) else none
    | _ => none

/-- Match of `^(\d+)(?::(\d+))?$` (googleSheetsApiHelpers.ts:357). -/
def matchRowOnly (l : List Char) : Option (List Char × Option (List Char)) :=
  matchRunPair isAsciiDigit l

/-- Match of `^([A-Z]+)(?::([A-Z]+))?$/i` (googleSheetsApiHelpers.ts:370). -/
def matchColOnly (l : List Char) : Option (List Char × Option (List Char)) :=
  matchRunPair isAsciiLetter l

/-- Match of `^([A-Z]+)(\d+)(?::([A-Z]+)(\d+))?$/i`
(googleSheetsApiHelpers.ts:383 and 920). -/
def matchStandard (l : List Char) :
    Option (List Char × List Char × Option (List Char × List Char)) :=
  let c1 := l.takeWhile isAsciiLetter
  let l1 := l.dropWhile isAsciiLetter
  let r1 := l1.takeWhile isAsciiDigit
  let l2 := l1.dropWhile isAsciiDigit
  if c1.isEmpty || r1.isEmpty then none
  else
    match l2 with
    | [] => some (c1, r1, none)
    | ':' :: rest2 =>
        let c2 := rest2.takeWhile isAsciiLetter
        let l3 := rest2.dropWhile isAsciiLetter
        let r2 := l3.takeWhile isAsciiDigit
        let l4 := l3.dropWhile isAsciiDigit
        if c2.isEmpty || r2.isEmpty || !l4.isEmpty then none
        else some (c1, r1, some (c2, r2))
    | _ => none

/-- The standard-pattern fallthrough of `parseA1ToGridRange`
(googleSheetsApiHelpers.ts:383-402). -/
def parseStandardA1 (a1Range : String) (sheetId : Int) : Except SheetsApiError GridRange :=
  match matchStandard a1Range.data with
  | none => .error (.invalidFormat a1Range)
  | some (c1, r1, rest) =>
      let startCol := colLettersToIndex ⟨c1⟩
      let startRow : Int := (digitsToNat r1 : Int) - 1
      let endCol := match rest with
        | some (c2, _) => colLettersToIndex ⟨c2⟩ + 1
        | none => startCol + 1
      let endRow : Int := match rest with
        | some (_, r2) => (digitsToNat r2 : Int)
        | none => startRow + 1
      .ok ⟨sheetId, some startRow, some endRow, some startCol, some endCol⟩

/-- `parseA1ToGridRange` (googleSheetsApiHelpers.ts:355-402): whole-row
pattern first, then the whole-column pattern guarded by the absence of any
digit, then the standard rectangle pattern. -/
def parseA1ToGridRange (a1Range : String) (sheetId : Int) : Except SheetsApiError GridRange :=
  match matchRowOnly a1Range.data with
  | some (a, b) =>
      let startRow : Int := (digitsToNat a : Int) - 1
      let endRow : Int := match b with
        | some b2 => (digitsToNat b2 : Int)
        | none => startRow + 1
      .ok ⟨sheetId, some startRow, some endRow, none, none⟩
  | none =>
      match matchColOnly a1Range.data with
      | some (c, d) =>
          if a1Range.data.any isAsciiDigit then parseStandardA1 a1Range sheetId
          else
            let startCol := colLettersToIndex ⟨c⟩
            let endCol := match d with
              | some d2 => colLettersToIndex ⟨d2⟩ + 1
              | none => startCol + 1
            .ok ⟨sheetId, none, none, some startCol, some endCol⟩
      | none => parseStandardA1 a1Range sheetId

/-- The nested `parseA1Range` of `batchFormat`
(googleSheetsApiHelpers.ts:919-927): rectangle pattern only, returning
zero-based INCLUSIVE end bounds (`endRow = match[4] - 1`, `endCol` without
the `+ 1`); the `+ 1` is applied where requests are built. -/
def parseA1RangeInclusive (a1 : String) :
    Except SheetsApiError (Int × Int × Int × Int) :=
  match matchStandard a1.data with
  | none => .error (.invalidFormat a1)
  | some (c1, r1, rest) =>
      let startCol := colLettersToIndex ⟨c1⟩
      let startRow : Int := (digitsToNat r1 : Int) - 1
      let endCol := match rest with
        | some (c2, _) => colLettersToIndex ⟨c2⟩
        | none => startCol
      let endRow : Int := match rest with
        | some (_, r2) => (digitsToNat r2 : Int) - 1
        | none => startRow
      .ok (startRow, endRow, startCol, endCol)

/-! ## Structural Resolver (src/googleSheetsApiHelpers.ts)

`parseRange` (lines 292-304) and `resolveSheetId` (lines 310-330), with
spreadsheet metadata modelled by the same optional shape as the API types. -/

structure SheetProperties where
  title : Option String
  sheetId : Option Int
deriving DecidableEq, Repr

structure SheetInfo where
  properties : Option SheetProperties
deriving DecidableEq, Repr

structure SpreadsheetMetadata where
  sheets : Option (List SheetInfo)
deriving DecidableEq, Repr

/-- `replace(/^'|'$/g, '')`: strip one leading and one trailing quote. -/
def stripQuotes (s : String) : String :=
  let l := match s.data with
    | '\'' :: r => r
    | l0 => l0
  match l.reverse with
  | '\'' :: r => ⟨r.reverse⟩
  | _ => ⟨l⟩

/-- `parseRange` (googleSheetsApiHelpers.ts:292-304): split on `!`; the part
before it (quotes stripped) is the sheet name, the part after it the cell
range. Like `range.split('!')[1]`, anything after a second `!` is dropped. -/
def parseRange (range : String) : Option String × String :=
  if range.data.contains '!' then
    let parts := range.data.splitOn '!'
    (some (stripQuotes ⟨parts.headI⟩), ⟨(parts.drop 1).headI⟩)
  else
    (none, range)

/-- Title lookup used by `resolveSheetId`:
`metadata.sheets?.find((s) => s.properties?.title === sheetName)`. -/
def findSheetByTitle (metadata : SpreadsheetMetadata) (name : String) : Option SheetInfo :=
  (metadata.sheets.getD []).find? fun s => (s.properties.bind SheetProperties.title) == some name

/-- `resolveSheetId` (googleSheetsApiHelpers.ts:310-330). The `if (sheetName)`
test is JavaScript truthiness, so an empty-string name takes the
first-sheet branch. A found sheet without a numeric id raises the same
not-found error; a missing/empty sheet list raises `emptyDocument` only in
the no-name branch. -/
def resolveSheetId (metadata : SpreadsheetMetadata) (sheetName : Option String) :
    Except SheetsApiError Int :=
  if jsTruthyStr sheetName then
    let name := sheetName.getD ""
    match findSheetByTitle metadata name with
    | some sheet =>
        match sheet.properties.bind SheetProperties.sheetId with
        | some sid => .ok sid
        | none => .error (.notFound name)
    | none => .error (.notFound name)
  else
    match (metadata.sheets.getD []).head? with
    | some firstSheet =>
        match firstSheet.properties.bind SheetProperties.sheetId with
        | some sid => .ok sid
        | none => .error .emptyDocument
    | none => .error .emptyDocument

/-! ## Color/Style Codec payloads and field masks
(src/googleSheetsApiHelpers.ts) -/

/-- An API color with the `alpha: 1` the builders attach. -/
structure RgbaColor where
  red : ℚ
  green : ℚ
  blue : ℚ
  alpha : ℚ
deriving DecidableEq, Repr

/-- The caller-facing color triple of `formatCells`' format argument. -/
structure ColorInput where
  red : ℚ
  green : ℚ
  blue : ℚ
deriving DecidableEq, Repr

/-- The `textFormat` part of `formatCells`' format argument. -/
structure TextFormatInput where
  foregroundColor : Option ColorInput
  fontSize : Option Int
  bold : Option Bool
  italic : Option Bool
deriving DecidableEq, Repr

/-- The format argument of `formatCells` (googleSheetsApiHelpers.ts:412-422). -/
structure FormatCellsInput where
  backgroundColor : Option ColorInput
  textFormat : Option TextFormatInput
  horizontalAlignment : Option String
  verticalAlignment : Option String
deriving DecidableEq, Repr

/-- The populated `textFormat` object of a `userEnteredFormat` payload. -/
structure TextFormatPayload where
  foregroundColor : Option RgbaColor
  fontSize : Option Int
  bold : Option Bool
  italic : Option Bool
  fontFamily : Option String
deriving DecidableEq, Repr

/-- The `userEnteredFormat` payload a cell-format request populates. -/
structure CellFormatPayload where
  backgroundColor : Option RgbaColor
  textFormat : Option TextFormatPayload
  horizontalAlignment : Option String
  verticalAlignment : Option String
  numberFormat : Option (String × String)
  wrapStrategy : Option String
deriving DecidableEq, Repr

/-- The `userEnteredFormat` object built by `formatCells`
(googleSheetsApiHelpers.ts:433-471): each provided attribute is copied in
(colors gain `alpha: 1`); `textFormat` is populated whenever the caller
passed a `textFormat` object, even an empty one. `formatCells` never sets
`numberFormat`, `wrapStrategy` or `fontFamily`. -/
def formatCellsPayload (format : FormatCellsInput) : CellFormatPayload where
  backgroundColor := format.backgroundColor.map fun c => ⟨c.red, c.green, c.blue, 1⟩
  textFormat := format.textFormat.map fun tf =>
    ⟨tf.foregroundColor.map fun c => ⟨c.red, c.green, c.blue, 1⟩,
     tf.fontSize, tf.bold, tf.italic, none⟩
  horizontalAlignment := format.horizontalAlignment
  verticalAlignment := format.verticalAlignment
  numberFormat := none
  wrapStrategy := none

/-- The field mask `formatCells` sends (googleSheetsApiHelpers.ts:483-484):
the FIXED string
`userEnteredFormat(backgroundColor,textFormat,horizontalAlignment,verticalAlignment)`,
i.e. the same four attribute paths regardless of which attributes were
provided. -/
def formatCellsMaskAttrs : List String :=
  ["backgroundColor", "textFormat", "horizontalAlignment", "verticalAlignment"]

/-- The top-level `userEnteredFormat` attributes actually populated in a
`CellFormatPayload`. -/
def cellFormatPopulatedAttrs (p : CellFormatPayload) : List String :=
  (if p.backgroundColor.isSome then ["backgroundColor"] else []) ++
  (if p.textFormat.isSome then ["textFormat"] else []) ++
  (if p.horizontalAlignment.isSome then ["horizontalAlignment"] else []) ++
  (if p.verticalAlignment.isSome then ["verticalAlignment"] else []) ++
  (if p.numberFormat.isSome then ["numberFormat"] else []) ++
  (if p.wrapStrategy.isSome then ["wrapStrategy"] else [])

/-! ### batchFormat cell formats (googleSheetsApiHelpers.ts:931-1013) -/

/-- One entry of `operations.cellFormats` in `batchFormat`
(googleSheetsApiHelpers.ts:881-893), minus the range. -/
structure BatchCellFormatInput where
  fontSize : Option Int
  bold : Option Bool
  italic : Option Bool
  fontFamily : Option String
  fontColor : Option String
  backgroundColor : Option String
  horizontalAlignment : Option String
  verticalAlignment : Option String
  numberFormat : Option String
  wrapStrategy : Option String
deriving DecidableEq, Repr

/-- `if (fmt.backgroundColor) { const bg = hexToRgb(...); if (bg) ... }`:
the color populated by a truthy hex string that parses. -/
def batchHexColor (o : Option String) : Option RgbaColor :=
  match o with
  | some s => if s ≠ "" then (hexToRgb s).map (fun c => ⟨c.red, c.green, c.blue, 1⟩) else none
  | none => none

/-- The `hasTextFormat` flag of the `batchFormat` cell-format builder: set
exactly when one of the five textFormat sub-attributes is populated. -/
def batchHasTextFormat (fmt : BatchCellFormatInput) : Bool :=
  (batchHexColor fmt.fontColor).isSome || fmt.fontSize.isSome || fmt.bold.isSome ||
    fmt.italic.isSome || jsTruthyStr fmt.fontFamily

/-- The `userEnteredFormat` object built per cell-format entry by
`batchFormat` (googleSheetsApiHelpers.ts:934-996). -/
def batchCellPayload (fmt : BatchCellFormatInput) : CellFormatPayload where
  backgroundColor := batchHexColor fmt.backgroundColor
  textFormat :=
    if batchHasTextFormat fmt then
      some ⟨batchHexColor fmt.fontColor, fmt.fontSize, fmt.bold, fmt.italic,
            if jsTruthyStr fmt.fontFamily then fmt.fontFamily else none⟩
    else none
  horizontalAlignment := if jsTruthyStr fmt.horizontalAlignment then fmt.horizontalAlignment else none
  verticalAlignment := if jsTruthyStr fmt.verticalAlignment then fmt.verticalAlignment else none
  numberFormat := if jsTruthyStr fmt.numberFormat then some ("NUMBER", fmt.numberFormat.getD "") else none
  wrapStrategy := if jsTruthyStr fmt.wrapStrategy then fmt.wrapStrategy else none

/-- The `fields` array accumulated per cell-format entry by `batchFormat`
(googleSheetsApiHelpers.ts:935-996), in push order. -/
def batchCellMask (fmt : BatchCellFormatInput) : List String :=
  (if (batchHexColor fmt.backgroundColor).isSome then ["userEnteredFormat.backgroundColor"] else []) ++
  (if (batchHexColor fmt.fontColor).isSome then ["userEnteredFormat.textFormat.foregroundColor"] else []) ++
  (if fmt.fontSize.isSome then ["userEnteredFormat.textFormat.fontSize"] else []) ++
  (if fmt.bold.isSome then ["userEnteredFormat.textFormat.bold"] else []) ++
  (if fmt.italic.isSome then ["userEnteredFormat.textFormat.italic"] else []) ++
  (if jsTruthyStr fmt.fontFamily then ["userEnteredFormat.textFormat.fontFamily"] else []) ++
  (if jsTruthyStr fmt.horizontalAlignment then ["userEnteredFormat.horizontalAlignment"] else []) ++
  (if jsTruthyStr fmt.verticalAlignment then ["userEnteredFormat.verticalAlignment"] else []) ++
  (if jsTruthyStr fmt.numberFormat then ["userEnteredFormat.numberFormat"] else []) ++
  (if jsTruthyStr fmt.wrapStrategy then ["userEnteredFormat.wrapStrategy"] else [])

/-- The attribute paths populated in a `CellFormatPayload`, at the
granularity `batchFormat`'s mask uses (leaf paths inside `textFormat`, the
attribute itself elsewhere), in the mask's order. -/
def batchPopulatedPaths (p : CellFormatPayload) : List String :=
  (if p.backgroundColor.isSome then ["userEnteredFormat.backgroundColor"] else []) ++
  (match p.textFormat with
   | none => []
   | some t =>
      (if t.foregroundColor.isSome then ["userEnteredFormat.textFormat.foregroundColor"] else []) ++
      (if t.fontSize.isSome then ["userEnteredFormat.textFormat.fontSize"] else []) ++
      (if t.bold.isSome then ["userEnteredFormat.textFormat.bold"] else []) ++
      (if t.italic.isSome then ["userEnteredFormat.textFormat.italic"] else []) ++
      (if t.fontFamily.isSome then ["userEnteredFormat.textFormat.fontFamily"] else [])) ++
  (if p.horizontalAlignment.isSome then ["userEnteredFormat.horizontalAlignment"] else []) ++
  (if p.verticalAlignment.isSome then ["userEnteredFormat.verticalAlignment"] else []) ++
  (if p.numberFormat.isSome then ["userEnteredFormat.numberFormat"] else []) ++
  (if p.wrapStrategy.isSome then ["userEnteredFormat.wrapStrategy"] else [])

/-! ### freezeRowsAndColumns (googleSheetsApiHelpers.ts:509-561) -/

/-- The `gridProperties` object `freezeRowsAndColumns` populates. -/
structure GridPropertiesPayload where
  frozenRowCount : Option Int
  frozenColumnCount : Option Int
deriving DecidableEq, Repr

/-- `freezeRowsAndColumns`' payload (googleSheetsApiHelpers.ts:519-529). -/
def freezePayload (frozenRows frozenColumns : Option Int) : GridPropertiesPayload where
  frozenRowCount := frozenRows
  frozenColumnCount := frozenColumns

/-- `freezeRowsAndColumns`' `fieldParts` array
(googleSheetsApiHelpers.ts:520-529), in push order. -/
def freezeMask (frozenRows frozenColumns : Option Int) : List String :=
  (if frozenRows.isSome then ["gridProperties.frozenRowCount"] else []) ++
  (if frozenColumns.isSome then ["gridProperties.frozenColumnCount"] else [])

/-- The attribute paths populated in a `GridPropertiesPayload`. -/
def freezePopulatedPaths (p : GridPropertiesPayload) : List String :=
  (if p.frozenRowCount.isSome then ["gridProperties.frozenRowCount"] else []) ++
  (if p.frozenColumnCount.isSome then ["gridProperties.frozenColumnCount"] else [])

/-! ## Batch requests -/

/-- The primitive spreadsheet requests the claims are about. -/
inductive SheetsRequest where
  | deleteConditionalFormatRule (sheetId : Int) (index : Nat)
  | repeatCell (range : GridRange) (cell : CellFormatPayload) (fields : List String)
deriving DecidableEq, Repr

/-- `formatCells` (googleSheetsApiHelpers.ts:408-504) up to its single
`batchUpdate` call: parse the range, resolve the sheet id, parse the A1 part
and build the one `repeatCell` request with the fixed field mask. An error
anywhere is thrown before any request list exists, so a failed resolution
issues no mutating call. -/
def formatCells (metadata : SpreadsheetMetadata) (range : String)
    (format : FormatCellsInput) : Except SheetsApiError (List SheetsRequest) :=
  let parsed := parseRange range
  match resolveSheetId metadata parsed.1 with
  | .error e => .error e
  | .ok sheetId =>
      match parseA1ToGridRange parsed.2 sheetId with
      | .error e => .error e
      | .ok gridRange =>
          .ok [.repeatCell gridRange (formatCellsPayload format) formatCellsMaskAttrs]

/-! ## clearConditionalFormatRules (googleSheetsApiHelpers.ts:832-871) -/

/-- The delete-request index loop
`for (let i = rules.length - 1; i >= 0; i--)`: the argument is the number of
remaining iterations, the emitted index is `i`. -/
def deleteLoopIndices : Nat → List Nat
  | 0 => []
  | k + 1 => k :: deleteLoopIndices k

/-- `clearConditionalFormatRules` (googleSheetsApiHelpers.ts:832-871) up to
its `batchUpdate` calls: given the per-sheet rule lists the metadata read
returned, find this sheet's rules; with no entry or no rules, return with no
submission; otherwise submit one batch of descending-index delete requests.
The result is the list of batch submissions issued. -/
def clearConditionalFormatRules {α : Type} (sheetId : Int)
    (fetched : List (Int × List α)) : List (List SheetsRequest) :=
  match fetched.find? (fun p => p.1 == sheetId) with
  | none => []
  | some sheetRules =>
      if sheetRules.2.length = 0 then []
      else [(deleteLoopIndices sheetRules.2.length).map
              (fun i => .deleteConditionalFormatRule sheetId i)]

/-! ## Drift-Compensating Request Builder (src/tools/docs/editTableCell.ts) -/

/-- The primitive document requests of `editTableCell`. -/
inductive DocRequest where
  | deleteContentRange (startIndex endIndex : Nat)
  | insertText (index : Nat) (text : String)
  | updateTextStyle (startIndex endIndex : Nat)
  | updateParagraphStyle (startIndex endIndex : Nat)
deriving DecidableEq, Repr

/-- Modelled from the spec: `buildUpdateTextStyleRequest` lives in
src/googleDocsApiHelpers.ts, which is not part of the available source; per
spec §4.3 step 4, a requested character-level style yields a style-range
request for the given bounds. -/
def buildUpdateTextStyleRequest (startIndex endIndex : Nat) : Option DocRequest :=
  some (.updateTextStyle startIndex endIndex)

/-- Modelled from the spec: `buildUpdateParagraphStyleRequest` lives in
src/googleDocsApiHelpers.ts, which is not part of the available source; per
spec §4.3 step 5, a requested paragraph-level style yields a style request
for the given bounds. -/
def buildUpdateParagraphStyleRequest (startIndex endIndex : Nat) : Option DocRequest :=
  some (.updateParagraphStyle startIndex endIndex)

/-- `newTextEnd` of `editTableCell` (editTableCell.ts:59-83): when
`textContent` is provided (even empty) it is `start + textContent.length`,
otherwise the cell's original end. -/
def newTextEndOf (startIndex endIndex : Nat) (textContent : Option String) : Nat :=
  match textContent with
  | some t => startIndex + t.length
  | none => endIndex

/-- The paragraph-style end bound (editTableCell.ts:98):
`textContent !== undefined ? newTextEnd + 1 : cellRange.endIndex + 1`. -/
def paraEndOf (startIndex endIndex : Nat) (textContent : Option String) : Nat :=
  match textContent with
  | some _ => newTextEndOf startIndex endIndex textContent + 1
  | none => endIndex + 1

/-- The request list built by `editTableCell` (editTableCell.ts:57-108) for a
resolved cell content range `[startIndex, endIndex)`: optional delete
(only when the range is non-empty), optional insert (only for non-empty
text), then character style over the new content, then paragraph style over
the new content plus delimiter — in that fixed order. `textStyle` and
`paragraphStyle` model whether the respective style argument was provided. -/
def editTableCellRequests (startIndex endIndex : Nat) (textContent : Option String)
    (textStyle paragraphStyle : Bool) : List DocRequest :=
  let base : List DocRequest :=
    match textContent with
    | some t =>
        (if endIndex > startIndex then [.deleteContentRange startIndex endIndex] else []) ++
        (if t.length > 0 then [.insertText startIndex t] else [])
    | none => []
  let newTextStart := startIndex
  let newTextEnd := newTextEndOf startIndex endIndex textContent
  let withTextStyle := base ++
    (if textStyle = true ∧ newTextEnd > newTextStart then
      match buildUpdateTextStyleRequest newTextStart newTextEnd with
      | some r => [r]
      | none => []
    else [])
  withTextStyle ++
    (if paragraphStyle = true ∧ newTextEnd ≥ newTextStart then
      match buildUpdateParagraphStyleRequest newTextStart (paraEndOf startIndex endIndex textContent) with
      | some r => [r]
      | none => []
    else [])

/-! ## Shared helper lemmas -/

theorem jsTruthyStr_isSome {o : Option String} (h : jsTruthyStr o = true) : o.isSome = true := by
  cases o <;> simp_all [jsTruthyStr]

/-! ## Claim theorems -/

/-- C10: `normalizeRange` with no sheet name returns the hard-coded literal
prefix `Sheet1!` followed by the unchanged range whenever the range contains
no `!`; a range already containing `!` is returned unchanged. -/
theorem normalizeRange_hardcoded_default (range : String) :
    (range.data.contains '!' = false → normalizeRange range none = "Sheet1!" ++ range) ∧
    (range.data.contains '!' = true → normalizeRange range none = range) := by
  constructor <;> intro h <;> simp_all [normalizeRange, jsTruthyStr]

/-- Witness for C10 at the concrete ranges `A1:B2` (no separator) and
`Sheet2!A1` (already qualified). -/
theorem normalizeRange_hardcoded_default_witness :
    normalizeRange "A1:B2" none = "Sheet1!A1:B2" ∧ normalizeRange "Sheet2!A1" none = "Sheet2!A1" :=
  ⟨(normalizeRange_hardcoded_default "A1:B2").1 (by decide),
   (normalizeRange_hardcoded_default "Sheet2!A1").2 (by decide)⟩

/-- C1: for a table-cell edit with resolved content range
`[startIndex, endIndex)` and requested replacement text `T`: a delete-range
request for that exact range is emitted iff the range is non-empty; an
insert-at-`startIndex` request is emitted iff `T` is non-empty; and with a
character style requested on a length-8 replacement over `[10, 15)` the
builder emits exactly delete[10,15), insert-at-10, style-range[10,18), in
that order. -/
theorem editTableCell_delete_insert_style (startIndex endIndex : Nat) (T : String)
    (textStyle paragraphStyle : Bool) :
    (DocRequest.deleteContentRange startIndex endIndex ∈
        editTableCellRequests startIndex endIndex (some T) textStyle paragraphStyle ↔
      endIndex > startIndex) ∧
    (DocRequest.insertText startIndex T ∈
        editTableCellRequests startIndex endIndex (some T) textStyle paragraphStyle ↔
      T ≠ "") ∧
    (T.length = 8 →
      editTableCellRequests 10 15 (some T) true false =
        [.deleteContentRange 10 15, .insertText 10 T, .updateTextStyle 10 18]) := by
  refine ⟨?_, ?_, ?_⟩
  · simp only [editTableCellRequests, buildUpdateTextStyleRequest,
      buildUpdateParagraphStyleRequest, newTextEndOf, List.mem_append]
    split_ifs <;> simp_all
  · have hlen : T.length > 0 ↔ T ≠ "" := by
      cases T with
      | mk l => cases l <;> simp [String.length, String.ext_iff]
    simp only [editTableCellRequests, buildUpdateTextStyleRequest,
      buildUpdateParagraphStyleRequest, newTextEndOf, List.mem_append]
    split_ifs <;> simp_all
  · intro h
    simp [editTableCellRequests, buildUpdateTextStyleRequest,
      buildUpdateParagraphStyleRequest, newTextEndOf, paraEndOf, h]

/-- Witness for C1 at `T = "newtext8"` over the range `[10, 15)`. -/
theorem editTableCell_delete_insert_style_witness :
    editTableCellRequests 10 15 (some "newtext8") true false =
      [.deleteContentRange 10 15, .insertText 10 "newtext8", .updateTextStyle 10 18] :=
  (editTableCell_delete_insert_style 10 15 "newtext8" true false).2.2 (by decide)

/-- Counterexample to C2: for the edit replacing content `[10, 15)` with the
EMPTY string (textContent provided but empty, paragraph style requested), no
insertion occurs, yet the code computes `newEnd = start + 0 = 10` rather
than keeping the original end 15: the paragraph-style request emitted covers
`[10, 11)`, not the claimed `[10, 16)`. -/
theorem editTableCell_newEnd_counterexample :
    editTableCellRequests 10 15 (some "") false true =
      [.deleteContentRange 10 15, .updateParagraphStyle 10 11] ∧
    DocRequest.updateParagraphStyle 10 16 ∉ editTableCellRequests 10 15 (some "") false true := by
  constructor <;> decide

/-- C2 (amended): `newEnd = start + textContent.length` whenever replacement
text was PROVIDED (even empty, when no insert request is emitted), and the
original `end` only when no replacement was provided; the paragraph-style
request covers `[start, newEnd + 1)` when text was provided and
`[start, end + 1)` otherwise, and is emitted whenever requested and
`newEnd ≥ start`. -/
theorem editTableCell_newEnd (startIndex endIndex : Nat) (T : String) (textStyle : Bool) :
    newTextEndOf startIndex endIndex (some T) = startIndex + T.length ∧
    newTextEndOf startIndex endIndex none = endIndex ∧
    paraEndOf startIndex endIndex (some T) = (startIndex + T.length) + 1 ∧
    paraEndOf startIndex endIndex none = endIndex + 1 ∧
    (∀ textContent : Option String,
      startIndex ≤ newTextEndOf startIndex endIndex textContent →
      DocRequest.updateParagraphStyle startIndex (paraEndOf startIndex endIndex textContent) ∈
        editTableCellRequests startIndex endIndex textContent textStyle true) := by
  refine ⟨rfl, rfl, rfl, rfl, ?_⟩
  intro textContent h
  simp only [editTableCellRequests, buildUpdateParagraphStyleRequest, List.mem_append]
  right
  simp [h]

/-- Witness for C2 (amended) at `T = "abc"`, range `[10, 15)`. -/
theorem editTableCell_newEnd_witness :
    newTextEndOf 10 15 (some "abc") = 13 ∧
    DocRequest.updateParagraphStyle 10 14 ∈ editTableCellRequests 10 15 (some "abc") false true :=
  ⟨(editTableCell_newEnd 10 15 "abc" false).1,
   (editTableCell_newEnd 10 15 "abc" false).2.2.2.2 (some "abc") (by decide)⟩

/-- The descending index loop equals the reversed range. -/
theorem deleteLoopIndices_eq_reverse_range (n : Nat) :
    deleteLoopIndices n = (List.range n).reverse := by
  induction n with
  | zero => rfl
  | succ k ih => simp [deleteLoopIndices, List.range_succ, ih]

/-- C3: clearing all conditional-format rules on a sheet with `N > 0` rules
issues exactly one batch submission of exactly `N` delete-by-index requests
with strictly descending indices `N-1, ..., 0`. -/
theorem clearConditionalFormatRules_one_descending_batch {α : Type} (sheetId : Int)
    (fetched : List (Int × List α)) (entry : Int × List α)
    (hfind : fetched.find? (fun p => p.1 == sheetId) = some entry)
    (hpos : 0 < entry.2.length) :
    clearConditionalFormatRules sheetId fetched =
      [((List.range entry.2.length).reverse).map
        (fun i => .deleteConditionalFormatRule sheetId i)] ∧
    (((List.range entry.2.length).reverse).map
        (fun i => SheetsRequest.deleteConditionalFormatRule sheetId i)).length =
      entry.2.length ∧
    List.Chain' (· > ·) ((List.range entry.2.length).reverse) := by
  refine ⟨?_, by simp, ?_⟩
  · unfold clearConditionalFormatRules
    rw [hfind]
    simp only [deleteLoopIndices_eq_reverse_range]
    have : ¬ entry.2.length = 0 := by omega
    simp [this]
  · exact (List.pairwise_reverse.mpr (by simpa [flip] using List.pairwise_lt_range entry.2.length)).chain'

/-- Witness for C3: a sheet (id 5) with three rules yields the single batch
`[delete 2, delete 1, delete 0]`. -/
theorem clearConditionalFormatRules_one_descending_batch_witness :
    clearConditionalFormatRules (α := Unit) 5 [(5, [(), (), ()])] =
      [[.deleteConditionalFormatRule 5 2, .deleteConditionalFormatRule 5 1,
        .deleteConditionalFormatRule 5 0]] :=
  (clearConditionalFormatRules_one_descending_batch 5 [(5, [(), (), ()])] (5, [(), (), ()])
    (by decide) (by decide)).1

deriving instance DecidableEq for Except

/-- Segment lemma: a mask entry guarded by a truthiness test agrees with the
populated-path entry of the field `if truthy then o else none`. -/
theorem seg_truthy (o : Option String) (path : List String) :
    (if (if jsTruthyStr o = true then o else none).isSome = true then path else []) =
      (if jsTruthyStr o = true then path else []) := by
  cases o with
  | none => simp [jsTruthyStr]
  | some s => by_cases h : s = "" <;> simp [jsTruthyStr, h]

/-- Counterexample to C4: a `formatCells` call providing only a background
color populates exactly one attribute, while the fixed field mask lists
`textFormat` (and two alignments) that are unpopulated: the mask and the
populated set disagree in membership. -/
theorem formatCells_fixed_mask_counterexample :
    cellFormatPopulatedAttrs (formatCellsPayload ⟨some ⟨1, 0, 0⟩, none, none, none⟩) =
      ["backgroundColor"] ∧
    "textFormat" ∈ formatCellsMaskAttrs ∧
    "textFormat" ∉
      cellFormatPopulatedAttrs (formatCellsPayload ⟨some ⟨1, 0, 0⟩, none, none, none⟩) := by
  refine ⟨?_, by decide, ?_⟩ <;> simp [cellFormatPopulatedAttrs, formatCellsPayload]

/-- C4 (amended): the mask/payload membership invariant holds by construction
for `batchFormat` cell formats and for `freezeRowsAndColumns` (mask and
payload are accumulated together); `formatCells` instead sends a FIXED
four-attribute mask, so every populated attribute is masked but masked
attributes may be unpopulated. -/
theorem fieldMask_matches_payload :
    (∀ fmt : BatchCellFormatInput,
      batchCellMask fmt = batchPopulatedPaths (batchCellPayload fmt)) ∧
    (∀ frozenRows frozenColumns : Option Int,
      freezeMask frozenRows frozenColumns =
        freezePopulatedPaths (freezePayload frozenRows frozenColumns)) ∧
    (∀ format : FormatCellsInput,
      cellFormatPopulatedAttrs (formatCellsPayload format) ⊆ formatCellsMaskAttrs) := by
  refine ⟨?_, ?_, ?_⟩
  · intro fmt
    simp only [batchCellMask, batchPopulatedPaths, batchCellPayload]
    by_cases htf : batchHasTextFormat fmt = true
    · simp only [htf, if_true]
      simp only [seg_truthy]
      by_cases h9 : jsTruthyStr fmt.numberFormat = true <;> simp [h9, List.append_assoc]
    · have hb : batchHasTextFormat fmt = false := by
        revert htf; cases batchHasTextFormat fmt <;> simp
      have hcomp := hb
      simp only [batchHasTextFormat, Bool.or_eq_false_iff] at hcomp
      obtain ⟨⟨⟨⟨h2, h3⟩, h4⟩, h5⟩, h6⟩ := hcomp
      simp only [seg_truthy]
      by_cases h9 : jsTruthyStr fmt.numberFormat = true <;>
        simp [hb, h2, h3, h4, h5, h6, h9, List.append_assoc]
  · intro frozenRows frozenColumns
    cases frozenRows <;> cases frozenColumns <;> rfl
  · intro format a ha
    simp only [cellFormatPopulatedAttrs, formatCellsPayload] at ha
    split_ifs at ha <;> simp_all [formatCellsMaskAttrs] <;> tauto

/-- Counterexample to C6: `resolveSheetId` given the EMPTY string as sheet
name on a spreadsheet whose only sheet is titled `Alpha` returns that
sheet's id 7, although no sheet is titled `""` (the claim's exact-match rule
demands NotFound): JavaScript truthiness routes `""` to the first-sheet
branch. -/
theorem resolveSheetId_empty_name_counterexample :
    resolveSheetId ⟨some [⟨some ⟨some "Alpha", some 7⟩⟩]⟩ (some "") = .ok 7 ∧
    findSheetByTitle ⟨some [⟨some ⟨some "Alpha", some 7⟩⟩]⟩ "" = none := by
  constructor <;> decide

/-- C6 (amended): `resolveSheetId` resolves a non-empty sheet name by exact,
case-sensitive title match (NotFound when absent); an omitted name resolves
to the first listed sheet, with EmptyDocument when there are no sheets; a
provided EMPTY name is treated like an omitted one (JS truthiness); and when
resolution fails, `formatCells` issues no mutating request. -/
theorem resolveSheetId_resolution (metadata : SpreadsheetMetadata) (name : String)
    (range : String) (format : FormatCellsInput) :
    (name ≠ "" → findSheetByTitle metadata name = none →
      resolveSheetId metadata (some name) = .error (.notFound name)) ∧
    (∀ sheet sid, name ≠ "" → findSheetByTitle metadata name = some sheet →
      sheet.properties.bind SheetProperties.sheetId = some sid →
      resolveSheetId metadata (some name) = .ok sid) ∧
    (∀ firstSheet sid, (metadata.sheets.getD []).head? = some firstSheet →
      firstSheet.properties.bind SheetProperties.sheetId = some sid →
      resolveSheetId metadata none = .ok sid) ∧
    (metadata.sheets.getD [] = [] → resolveSheetId metadata none = .error .emptyDocument) ∧
    (resolveSheetId metadata (some "") = resolveSheetId metadata none) ∧
    (∀ e, resolveSheetId metadata (parseRange range).1 = .error e →
      formatCells metadata range format = .error e) := by
  refine ⟨?_, ?_, ?_, ?_, ?_, ?_⟩
  · intro hne hfind
    simp [resolveSheetId, jsTruthyStr, hne, hfind]
  · intro sheet sid hne hfind hsid
    simp [resolveSheetId, jsTruthyStr, hne, hfind, hsid]
  · intro firstSheet sid hhead hsid
    simp [resolveSheetId, jsTruthyStr, hhead, hsid]
  · intro hnil
    simp [resolveSheetId, jsTruthyStr, hnil]
  · simp [resolveSheetId, jsTruthyStr]
  · intro e he
    simp [formatCells, he]

/-- Witness for C6 (amended) on a two-sheet spreadsheet: a missing name
fails NotFound, an exact match resolves, omission resolves to the first
sheet, an empty sheet list fails EmptyDocument, and a failed resolution
propagates out of `formatCells` untouched. -/
theorem resolveSheetId_resolution_witness :
    resolveSheetId ⟨some [⟨some ⟨some "Alpha", some 7⟩⟩, ⟨some ⟨some "Beta", some 9⟩⟩]⟩
        (some "Gamma") = .error (.notFound "Gamma") ∧
    resolveSheetId ⟨some [⟨some ⟨some "Alpha", some 7⟩⟩, ⟨some ⟨some "Beta", some 9⟩⟩]⟩
        (some "Beta") = .ok 9 ∧
    resolveSheetId ⟨some [⟨some ⟨some "Alpha", some 7⟩⟩, ⟨some ⟨some "Beta", some 9⟩⟩]⟩
        none = .ok 7 ∧
    resolveSheetId (SpreadsheetMetadata.mk (some [])) none = .error .emptyDocument ∧
    formatCells ⟨some [⟨some ⟨some "Alpha", some 7⟩⟩]⟩ "Gamma!A1" ⟨none, none, none, none⟩ =
      .error (.notFound "Gamma") :=
  ⟨(resolveSheetId_resolution ⟨some [⟨some ⟨some "Alpha", some 7⟩⟩, ⟨some ⟨some "Beta", some 9⟩⟩]⟩
      "Gamma" "" ⟨none, none, none, none⟩).1 (by decide) (by decide),
   (resolveSheetId_resolution ⟨some [⟨some ⟨some "Alpha", some 7⟩⟩, ⟨some ⟨some "Beta", some 9⟩⟩]⟩
      "Beta" "" ⟨none, none, none, none⟩).2.1 ⟨some ⟨some "Beta", some 9⟩⟩ 9 (by decide)
      (by decide) (by decide),
   (resolveSheetId_resolution ⟨some [⟨some ⟨some "Alpha", some 7⟩⟩, ⟨some ⟨some "Beta", some 9⟩⟩]⟩
      "" "" ⟨none, none, none, none⟩).2.2.1 ⟨some ⟨some "Alpha", some 7⟩⟩ 7 (by decide) (by decide),
   (resolveSheetId_resolution (SpreadsheetMetadata.mk (some [])) "" ""
      ⟨none, none, none, none⟩).2.2.2.1 (by decide),
   (resolveSheetId_resolution ⟨some [⟨some ⟨some "Alpha", some 7⟩⟩]⟩ "" "Gamma!A1"
      ⟨none, none, none, none⟩).2.2.2.2.2 (.notFound "Gamma") (by decide)⟩

/-- Counterexample to C9: `colLettersToIndex` does not fail on non-letter
input; on `"1"` (a non-letter character) it returns the integer -16. -/
theorem colLettersToIndex_no_failure_counterexample :
    colLettersToIndex "1" = -16 ∧ isAsciiLetter '1' = false := by
  constructor <;> decide

/-- `stripHashChar` keeps a string whose first character is not `#`. -/
theorem stripHashChar_cons_ne (a : Char) (l : List Char) (h : a ≠ '#') :
    stripHashChar ⟨a :: l⟩ = ⟨a :: l⟩ := by
  unfold stripHashChar
  split
  · next r heq =>
      simp only [List.cons.injEq] at heq
      exact absurd heq.1 h
  · rfl

/-- A non-empty string is not `""` under `==`. -/
theorem mkStr_beq_empty_eq_false (a : Char) (l : List Char) :
    ((⟨a :: l⟩ : String) == "") = false := by
  simp [String.ext_iff]

/-- Counterexample to C8: `"12345G"` is NOT a 3- or 6-hex-digit string
(`G` is not a hex digit), yet `hexToRgb` returns a color — JavaScript
`parseInt` parses the valid prefix `12345` and ignores the trailing `G`. -/
theorem hexToRgb_prefix_parse_counterexample :
    hexToRgb "12345G" = some ⟨1 / 255, 35 / 255, 69 / 255⟩ ∧ isHexDigit 'G' = false := by
  constructor
  · have h : hexToRgbNum "12345G" = some (1, 35, 69) := by decide
    simp [hexToRgb, h]
  · decide

/-- C8 (amended): `hexToRgb` accepts 3- or 6-character values with optional
`#`, expanding the 3-character form by digit duplication (so `#FF0000` and
`F00` both give pure red); it returns `none` for the empty string, for any
other cleaned length, and when `parseInt(s, 16)` finds no hexadecimal
prefix; but a 6-character value with a parseable hex PREFIX yields a color
even if it is not all hex digits. -/
theorem hexToRgb_shape (s : String) (a b c : Char) :
    (hexToRgb "#FF0000" = some ⟨1, 0, 0⟩ ∧ hexToRgb "F00" = some ⟨1, 0, 0⟩) ∧
    (a ≠ '#' → hexToRgb ⟨[a, b, c]⟩ = hexToRgb ⟨[a, a, b, b, c, c]⟩) ∧
    (s.data ≠ [] → (stripHashChar s).length ≠ 3 → (stripHashChar s).length ≠ 6 →
      hexToRgb s = none) ∧
    (s.data ≠ [] → (stripHashChar s).length = 6 → jsParseIntHex (stripHashChar s) = none →
      hexToRgb s = none) ∧
    hexToRgb "" = none := by
  refine ⟨⟨?_, ?_⟩, ?_, ?_, ?_, ?_⟩
  · have h : hexToRgbNum "#FF0000" = some (255, 0, 0) := by decide
    simp [hexToRgb, h]
  · have h : hexToRgbNum "F00" = some (255, 0, 0) := by decide
    simp [hexToRgb, h]
  · intro ha
    have h1 := stripHashChar_cons_ne a [b, c] ha
    have h2 := stripHashChar_cons_ne a [a, b, b, c, c] ha
    simp only [hexToRgb, hexToRgbNum, h1, h2, mkStr_beq_empty_eq_false, Bool.false_eq_true,
      if_false, String.length]
    norm_num
  · intro hne h3 h6
    obtain ⟨l⟩ := s
    match l, hne with
    | a :: l, _ =>
      simp only [hexToRgb, hexToRgbNum, mkStr_beq_empty_eq_false, Bool.false_eq_true, if_false]
      rw [if_neg h3, if_pos h6]
      rfl
  · intro hne h6 hparse
    obtain ⟨l⟩ := s
    match l, hne with
    | a :: l, _ =>
      have h3 : (stripHashChar ⟨a :: l⟩).length ≠ 3 := by omega
      simp only [hexToRgb, hexToRgbNum, mkStr_beq_empty_eq_false, Bool.false_eq_true, if_false]
      rw [if_neg h3, if_neg (by omega : ¬ (stripHashChar ⟨a :: l⟩).length ≠ 6), hparse]
      rfl
  · rfl

/-- Witness for C8 (amended): the duplication law at `F00`, the wrong-length
rejection at `zz`, and the no-hex-prefix rejection at `GGGGGG`. -/
theorem hexToRgb_shape_witness :
    hexToRgb "F00" = hexToRgb "FF0000" ∧
    hexToRgb "zz" = none ∧
    hexToRgb "GGGGGG" = none :=
  ⟨(hexToRgb_shape "" 'F' '0' '0').2.1 (by decide),
   (hexToRgb_shape "zz" 'a' 'a' 'a').2.2.1 (by decide) (by decide) (by decide),
   (hexToRgb_shape "GGGGGG" 'a' 'a' 'a').2.2.2.1 (by decide) (by decide) (by decide)⟩

/-- The characters emitted by the encoder loop are upper-case letters whose
decoded value is `r + 1`. -/
theorem encoded_char_value : ∀ r : Fin 26,
    ((Char.ofNat (65 + r.val)).toUpper.toNat : Int) - 64 = (r.val : Int) + 1 := by
  decide

/-- The encoder loop only prepends to its accumulator. -/
theorem indexToColumnLettersLoop_append (m : Nat) : ∀ acc : List Char,
    indexToColumnLettersLoop m acc = indexToColumnLettersLoop m [] ++ acc := by
  induction m using Nat.strong_induction_on with
  | _ m ih =>
    intro acc
    match m with
    | 0 => simp [indexToColumnLettersLoop]
    | n + 1 =>
      have hlt : n / 26 < n + 1 := Nat.lt_succ_of_le (Nat.div_le_self n 26)
      have e1 : indexToColumnLettersLoop (n + 1) acc =
          indexToColumnLettersLoop (n / 26) (Char.ofNat (65 + n % 26) :: acc) := by
        rw [indexToColumnLettersLoop]
      have e2 : indexToColumnLettersLoop (n + 1) [] =
          indexToColumnLettersLoop (n / 26) [Char.ofNat (65 + n % 26)] := by
        rw [indexToColumnLettersLoop]
      rw [e1, e2, ih (n / 26) hlt, ih (n / 26) hlt [Char.ofNat (65 + n % 26)]]
      simp

/-- Decoding the letters the encoder produces recovers the loop argument. -/
theorem decode_indexToColumnLettersLoop (m : Nat) :
    (indexToColumnLettersLoop m []).foldl
      (fun idx c => idx * 26 + ((c.toUpper.toNat : Int) - 64)) 0 = m := by
  induction m using Nat.strong_induction_on with
  | _ m ih =>
    match m with
    | 0 => simp [indexToColumnLettersLoop]
    | n + 1 =>
      have hlt : n / 26 < n + 1 := Nat.lt_succ_of_le (Nat.div_le_self n 26)
      have e2 : indexToColumnLettersLoop (n + 1) [] =
          indexToColumnLettersLoop (n / 26) [] ++ [Char.ofNat (65 + n % 26)] := by
        rw [indexToColumnLettersLoop, indexToColumnLettersLoop_append]
      rw [e2, List.foldl_append, ih (n / 26) hlt]
      simp only [List.foldl_cons, List.foldl_nil]
      have hc : ((Char.ofNat (65 + n % 26)).toUpper.toNat : Int) - 64 = ((n % 26 : Nat) : Int) + 1 :=
        encoded_char_value ⟨n % 26, Nat.mod_lt n (by omega)⟩
      rw [hc]
      omega


/-- `Char.toNat` of `Char.ofNat` at a valid code point. -/
theorem char_toNat_ofNat (n : Nat) (h : n.isValidChar) : (Char.ofNat n).toNat = n := by
  simp [Char.ofNat, h, Char.toNat, Char.ofNatAux, UInt32.toNat, BitVec.toNat_ofNatLt]

/-- Upper-casing an ASCII letter lands in the upper-case letter range. -/
theorem letter_toUpper_bounds (c : Char) (h : isAsciiLetter c = true) :
    65 ≤ c.toUpper.toNat ∧ c.toUpper.toNat ≤ 90 := by
  simp only [isAsciiLetter, Bool.or_eq_true, Bool.and_eq_true, decide_eq_true_eq] at h
  rcases h with ⟨h1, h2⟩ | ⟨h1, h2⟩
  · have he : c.toUpper = c := by
      simp only [Char.toUpper]
      rw [if_neg (by omega)]
    rw [he]
    omega
  · simp only [Char.toUpper]
    rw [if_pos (by omega), char_toNat_ofNat _ (by left; omega)]
    omega

/-- The decoded numeric value of an upper-case letter list (the `index`
accumulator of `colLettersToIndex` before the final decrement, over an
already upper-cased list). -/
def upperDecode (u : List Char) : Nat :=
  u.foldl (fun a c => a * 26 + (c.toNat - 64)) 0

theorem upperDecode_append (l : List Char) (c : Char) :
    upperDecode (l ++ [c]) = upperDecode l * 26 + (c.toNat - 64) := by
  simp [upperDecode, List.foldl_append]

theorem upperDecode_pos (u : List Char) (hne : u ≠ [])
    (h : ∀ c ∈ u, 65 ≤ c.toNat) : 1 ≤ upperDecode u := by
  rcases List.eq_nil_or_concat u with rfl | ⟨l, c, rfl⟩
  · exact absurd rfl hne
  · have := h c (by simp)
    rw [List.concat_eq_append, upperDecode_append]
    omega

/-- Encoding the decoded value of an upper-case letter list recovers it. -/
theorem encode_upperDecode (u : List Char) (h : ∀ c ∈ u, 65 ≤ c.toNat ∧ c.toNat ≤ 90) :
    indexToColumnLettersLoop (upperDecode u) [] = u := by
  induction u using List.reverseRecOn with
  | nil => simp [upperDecode, indexToColumnLettersLoop]
  | append_singleton l c ih =>
    have hc := h c (by simp)
    have hl : ∀ x ∈ l, 65 ≤ x.toNat ∧ x.toNat ≤ 90 := fun x hx => h x (by simp [hx])
    rw [upperDecode_append]
    have hsucc : upperDecode l * 26 + (c.toNat - 64) =
        (upperDecode l * 26 + (c.toNat - 64) - 1) + 1 := by omega
    rw [hsucc, indexToColumnLettersLoop]
    have hmod : (upperDecode l * 26 + (c.toNat - 64) - 1) % 26 = c.toNat - 65 := by omega
    have hdiv : (upperDecode l * 26 + (c.toNat - 64) - 1) / 26 = upperDecode l := by omega
    rw [hmod, hdiv, indexToColumnLettersLoop_append, ih hl]
    have h65 : 65 + (c.toNat - 65) = c.toNat := by omega
    rw [h65, Char.ofNat_toNat]

/-- The `Int` fold of `colLettersToIndex` agrees with the `Nat` decode of the
upper-cased list, for letter input. -/
theorem intFold_eq_upperDecode (l : List Char) (h : ∀ c ∈ l, isAsciiLetter c = true) :
    ∀ a : Nat, l.foldl (fun idx c => idx * 26 + ((c.toUpper.toNat : Int) - 64)) (a : Int) =
      ((l.map Char.toUpper).foldl (fun x c => x * 26 + (c.toNat - 64)) a : Nat) := by
  induction l with
  | nil => intro a; simp
  | cons c cs ih =>
    intro a
    have hb := letter_toUpper_bounds c (h c (by simp))
    simp only [List.foldl_cons, List.map_cons]
    have hstep : (a : Int) * 26 + ((c.toUpper.toNat : Int) - 64) =
        ((a * 26 + (c.toUpper.toNat - 64) : Nat) : Int) := by omega
    rw [hstep, ih (fun x hx => h x (by simp [hx]))]

/-- C7: `colLettersToIndex` and `indexToColumnLetters` are mutually inverse:
encoding any non-negative index and decoding it returns the index, and
decoding any non-empty letter string and re-encoding it returns its
upper-casing. -/
theorem colLetters_roundtrip (s : String) :
    (∀ n : Nat, colLettersToIndex (indexToColumnLetters n) = n) ∧
    (s.data ≠ [] → (∀ c ∈ s.data, isAsciiLetter c = true) →
      0 ≤ colLettersToIndex s ∧
      indexToColumnLetters (colLettersToIndex s).toNat = jsToUpperCase s) := by
  constructor
  · intro n
    simp only [colLettersToIndex, indexToColumnLetters]
    rw [decode_indexToColumnLettersLoop]
    omega
  · intro hne hl
    have hub : ∀ c ∈ s.data.map Char.toUpper, 65 ≤ c.toNat ∧ c.toNat ≤ 90 := by
      intro c hc
      obtain ⟨x, hx, rfl⟩ := List.mem_map.mp hc
      exact letter_toUpper_bounds x (hl x hx)
    have hcol : colLettersToIndex s = (upperDecode (s.data.map Char.toUpper) : Int) - 1 := by
      simp only [colLettersToIndex, upperDecode]
      rw [show (0 : Int) = ((0 : Nat) : Int) from rfl, intFold_eq_upperDecode s.data hl 0]
    have hpos : 1 ≤ upperDecode (s.data.map Char.toUpper) :=
      upperDecode_pos _ (by simpa using hne) (fun c hc => (hub c hc).1)
    constructor
    · rw [hcol]; omega
    · rw [hcol]
      have ht : ((upperDecode (s.data.map Char.toUpper) : Int) - 1).toNat =
          upperDecode (s.data.map Char.toUpper) - 1 := by omega
      rw [ht]
      simp only [indexToColumnLetters]
      rw [show upperDecode (s.data.map Char.toUpper) - 1 + 1 =
            upperDecode (s.data.map Char.toUpper) from by omega,
          encode_upperDecode _ hub]
      rfl

/-- Witness for C7 at index 27 and the letter string `ab`. -/
theorem colLetters_roundtrip_witness :
    colLettersToIndex (indexToColumnLetters 27) = 27 ∧
    (0 ≤ colLettersToIndex "ab" ∧
      indexToColumnLetters (colLettersToIndex "ab").toNat = jsToUpperCase "ab") :=
  ⟨(colLetters_roundtrip "ab").1 27, (colLetters_roundtrip "ab").2 (by decide) (by decide)⟩

/-! ### Scanner lemmas for the A1 regex models -/

theorem takeWhile_all_sat {p : Char → Bool} : ∀ l : List Char,
    (∀ c ∈ l, p c = true) → l.takeWhile p = l ∧ l.dropWhile p = [] := by
  intro l h
  induction l with
  | nil => simp
  | cons x xs ih =>
      have hx := h x (by simp)
      have ⟨ht, hd⟩ := ih (fun c hc => h c (by simp [hc]))
      simp [List.takeWhile_cons, List.dropWhile_cons, hx, ht, hd]

theorem takeWhile_append_stop {p : Char → Bool} (a : List Char) (y : Char) (ys : List Char)
    (ha : ∀ c ∈ a, p c = true) (hy : p y = false) :
    (a ++ y :: ys).takeWhile p = a ∧ (a ++ y :: ys).dropWhile p = y :: ys := by
  induction a with
  | nil => simp [List.takeWhile_cons, List.dropWhile_cons, hy]
  | cons x xs ih =>
      have hx := ha x (by simp)
      have ⟨ht, hd⟩ := ih (fun c hc => ha c (by simp [hc]))
      simp [List.takeWhile_cons, List.dropWhile_cons, hx, ht, hd]

theorem matchRunPair_single {p : Char → Bool} (a : List Char) (hne : a ≠ [])
    (ha : ∀ c ∈ a, p c = true) : matchRunPair p a = some (a, none) := by
  have ⟨ht, hd⟩ := takeWhile_all_sat a ha
  simp [matchRunPair, ht, hd, List.isEmpty_iff, hne]

theorem matchRunPair_pair {p : Char → Bool} (a b : List Char) (hpc : p ':' = false)
    (hane : a ≠ []) (ha : ∀ c ∈ a, p c = true)
    (hbne : b ≠ []) (hb : ∀ c ∈ b, p c = true) :
    matchRunPair p (a ++ ':' :: b) = some (a, some b) := by
  have ⟨ht, hd⟩ := takeWhile_append_stop a ':' b ha hpc
  have hball : b.all p = true := List.all_eq_true.mpr hb
  simp [matchRunPair, ht, hd, List.isEmpty_iff, hane, hbne, hball]

theorem matchRunPair_none_head {p : Char → Bool} (x : Char) (l : List Char)
    (hx : p x = false) : matchRunPair p (x :: l) = none := by
  simp [matchRunPair, List.takeWhile_cons, hx]

theorem matchRunPair_stop_ne_colon {p : Char → Bool} (a : List Char) (y : Char) (ys : List Char)
    (ha : ∀ c ∈ a, p c = true) (hy : p y = false) (hyc : y ≠ ':') :
    matchRunPair p (a ++ y :: ys) = none := by
  have ⟨ht, hd⟩ := takeWhile_append_stop a y ys ha hy
  simp only [matchRunPair, ht, hd]
  by_cases he : a.isEmpty
  · simp [he]
  · simp only [he, Bool.false_eq_true, if_false]
    split
    · next heq => simp at heq
    · next b heq =>
        obtain ⟨rfl, -⟩ := List.cons.injEq .. |>.mp heq
        exact absurd rfl hyc
    · rfl

theorem matchRunPair_none_of_bad {p : Char → Bool} (l : List Char) (c : Char)
    (hc : c ∈ l) (h1 : p c = false) (h2 : c ≠ ':') : matchRunPair p l = none := by
  rcases List.mem_append.mp ((List.takeWhile_append_dropWhile (p := p) (l := l)) ▸ hc)
    with hmem | hmem
  · exact absurd (List.mem_takeWhile_imp hmem) (by simp [h1])
  · by_cases he : (l.takeWhile p).isEmpty
    · simp [matchRunPair, he]
    · simp only [matchRunPair, he, Bool.false_eq_true, if_false]
      split
      · next heq => rw [heq] at hmem; cases hmem
      · next b heq =>
          rw [heq] at hmem
          rcases List.mem_cons.mp hmem with rfl | hmem2
          · exact absurd rfl h2
          · have hball : b.all p = false := by
              rcases hb : b.all p with _ | _
              · rfl
              · exact absurd (List.all_eq_true.mp hb c hmem2) (by simp [h1])
            simp [hball]
      · rfl

theorem digit_not_letter {c : Char} (h : isAsciiDigit c = true) : isAsciiLetter c = false := by
  simp only [isAsciiDigit, Bool.and_eq_true, decide_eq_true_eq] at h
  simp only [isAsciiLetter, Bool.or_eq_false_iff, Bool.and_eq_false_iff,
    decide_eq_false_iff_not, not_le]
  omega

theorem letter_not_digit {c : Char} (h : isAsciiLetter c = true) : isAsciiDigit c = false := by
  simp only [isAsciiLetter, Bool.or_eq_true, Bool.and_eq_true, decide_eq_true_eq] at h
  simp only [isAsciiDigit, Bool.and_eq_false_iff, decide_eq_false_iff_not, not_le]
  omega

theorem matchStandard_single (c1 r1 : List Char)
    (hc1ne : c1 ≠ []) (hc1 : ∀ c ∈ c1, isAsciiLetter c = true)
    (hr1ne : r1 ≠ []) (hr1 : ∀ c ∈ r1, isAsciiDigit c = true) :
    matchStandard (c1 ++ r1) = some (c1, r1, none) := by
  match r1, hr1ne with
  | d :: r1t, _ =>
    have hd := hr1 d (by simp)
    have ⟨ht1, hd1⟩ := takeWhile_append_stop c1 d r1t hc1 (digit_not_letter hd)
    have ⟨ht2, hd2⟩ := takeWhile_all_sat (d :: r1t) hr1
    simp [matchStandard, ht1, hd1, ht2, hd2, List.isEmpty_iff, hc1ne]

theorem matchStandard_pair (c1 r1 c2 r2 : List Char)
    (hc1ne : c1 ≠ []) (hc1 : ∀ c ∈ c1, isAsciiLetter c = true)
    (hr1ne : r1 ≠ []) (hr1 : ∀ c ∈ r1, isAsciiDigit c = true)
    (hc2ne : c2 ≠ []) (hc2 : ∀ c ∈ c2, isAsciiLetter c = true)
    (hr2ne : r2 ≠ []) (hr2 : ∀ c ∈ r2, isAsciiDigit c = true) :
    matchStandard (c1 ++ r1 ++ ':' :: (c2 ++ r2)) = some (c1, r1, some (c2, r2)) := by
  match r1, hr1ne, r2, hr2ne with
  | d1 :: r1t, _, d2 :: r2t, _ =>
    have hd1d := hr1 d1 (by simp)
    have hd2d := hr2 d2 (by simp)
    have hassoc : c1 ++ (d1 :: r1t) ++ ':' :: (c2 ++ (d2 :: r2t)) =
        c1 ++ d1 :: (r1t ++ ':' :: (c2 ++ (d2 :: r2t))) := by simp
    rw [hassoc]
    have ⟨ht1, hdr1⟩ := takeWhile_append_stop c1 d1 (r1t ++ ':' :: (c2 ++ (d2 :: r2t)))
      hc1 (digit_not_letter hd1d)
    have ⟨ht2, hdr2⟩ := takeWhile_append_stop (d1 :: r1t) ':' (c2 ++ (d2 :: r2t)) hr1 (by decide)
    simp only [List.cons_append] at ht2 hdr2
    have ⟨ht3, hdr3⟩ := takeWhile_append_stop c2 d2 r2t hc2 (digit_not_letter hd2d)
    have ⟨ht4, hdr4⟩ := takeWhile_all_sat (d2 :: r2t) hr2
    simp [matchStandard, ht1, hdr1, ht2, hdr2, ht3, hdr3, ht4, hdr4,
      List.isEmpty_iff, hc1ne, hc2ne]

theorem matchStandard_none_of_bad (l : List Char) (c : Char) (hc : c ∈ l)
    (h1 : isAsciiLetter c = false) (h2 : isAsciiDigit c = false) (h3 : c ≠ ':') :
    matchStandard l = none := by
  rcases List.mem_append.mp ((List.takeWhile_append_dropWhile (p := isAsciiLetter) (l := l)) ▸ hc)
    with hmem | hmem
  · exact absurd (List.mem_takeWhile_imp hmem) (by simp [h1])
  set l1 := l.dropWhile isAsciiLetter with hl1
  rcases List.mem_append.mp ((List.takeWhile_append_dropWhile (p := isAsciiDigit) (l := l1)) ▸ hmem)
    with hmem1 | hmem1
  · exact absurd (List.mem_takeWhile_imp hmem1) (by simp [h2])
  -- c is in l2 := l1.dropWhile isAsciiDigit
  by_cases hce : (l.takeWhile isAsciiLetter).isEmpty
  · simp [matchStandard, hce]
  by_cases hre : (l1.takeWhile isAsciiDigit).isEmpty
  · simp [matchStandard, ← hl1, hre]
  simp only [matchStandard, ← hl1, hce, hre, Bool.false_eq_true, Bool.or_self, if_false]
  split
  · next heq => rw [heq] at hmem1; cases hmem1
  · next rest2 heq =>
      rw [heq] at hmem1
      rcases List.mem_cons.mp hmem1 with rfl | hmem2
      · exact absurd rfl h3
      -- c ∈ rest2
      rcases List.mem_append.mp
          ((List.takeWhile_append_dropWhile (p := isAsciiLetter) (l := rest2)) ▸ hmem2)
        with hmem3 | hmem3
      · exact absurd (List.mem_takeWhile_imp hmem3) (by simp [h1])
      set l3 := rest2.dropWhile isAsciiLetter with hl3
      rcases List.mem_append.mp
          ((List.takeWhile_append_dropWhile (p := isAsciiDigit) (l := l3)) ▸ hmem3)
        with hmem4 | hmem4
      · exact absurd (List.mem_takeWhile_imp hmem4) (by simp [h2])
      -- c ∈ l4, so l4 is non-empty and the final guard rejects
      have hl4 : (l3.dropWhile isAsciiDigit).isEmpty = false := by
        rcases hmm : l3.dropWhile isAsciiDigit with _ | _
        · rw [hmm] at hmem4; cases hmem4
        · rfl
      simp [← hl3, hl4]
  · rfl

/-! ### Evaluation of `parseA1ToGridRange` on the three accepted shapes -/

theorem parseA1_row_single (a : List Char) (sid : Int) (hne : a ≠ [])
    (ha : ∀ c ∈ a, isAsciiDigit c = true) :
    parseA1ToGridRange ⟨a⟩ sid =
      .ok ⟨sid, some ((digitsToNat a : Int) - 1), some ((digitsToNat a : Int) - 1 + 1),
        none, none⟩ := by
  simp [parseA1ToGridRange, matchRowOnly, matchRunPair_single a hne ha]

theorem parseA1_row_pair (a b : List Char) (sid : Int)
    (hane : a ≠ []) (ha : ∀ c ∈ a, isAsciiDigit c = true)
    (hbne : b ≠ []) (hb : ∀ c ∈ b, isAsciiDigit c = true) :
    parseA1ToGridRange ⟨a ++ ':' :: b⟩ sid =
      .ok ⟨sid, some ((digitsToNat a : Int) - 1), some (digitsToNat b : Int),
        none, none⟩ := by
  simp [parseA1ToGridRange, matchRowOnly,
    matchRunPair_pair a b (by decide) hane ha hbne hb]

theorem parseA1_col_single (cl : List Char) (sid : Int) (hne : cl ≠ [])
    (hl : ∀ c ∈ cl, isAsciiLetter c = true) :
    parseA1ToGridRange ⟨cl⟩ sid =
      .ok ⟨sid, none, none, some (colLettersToIndex ⟨cl⟩),
        some (colLettersToIndex ⟨cl⟩ + 1)⟩ := by
  match cl, hne with
  | x :: xs, _ =>
    have hrow : matchRunPair isAsciiDigit (x :: xs) = none :=
      matchRunPair_none_head x xs (letter_not_digit (hl x (by simp)))
    have hcol := matchRunPair_single (p := isAsciiLetter) (x :: xs) (by simp) hl
    have hnod : (x :: xs).any isAsciiDigit = false := by
      rw [List.any_eq_false]
      intro c hc
      simp [letter_not_digit (hl c hc)]
    simp [parseA1ToGridRange, matchRowOnly, matchColOnly, hrow, hcol, hnod]

theorem parseA1_col_pair (cl dl : List Char) (sid : Int)
    (hcne : cl ≠ []) (hc : ∀ c ∈ cl, isAsciiLetter c = true)
    (hdne : dl ≠ []) (hd : ∀ c ∈ dl, isAsciiLetter c = true) :
    parseA1ToGridRange ⟨cl ++ ':' :: dl⟩ sid =
      .ok ⟨sid, none, none, some (colLettersToIndex ⟨cl⟩),
        some (colLettersToIndex ⟨dl⟩ + 1)⟩ := by
  match cl, hcne with
  | x :: xs, _ =>
    have hrow : matchRunPair isAsciiDigit (x :: (xs ++ ':' :: dl)) = none :=
      matchRunPair_none_head x (xs ++ ':' :: dl) (letter_not_digit (hc x (by simp)))
    have hcol := matchRunPair_pair (p := isAsciiLetter) (x :: xs) dl (by decide)
      (by simp) hc hdne hd
    simp only [List.cons_append] at hcol
    have hnod : (x :: (xs ++ ':' :: dl)).any isAsciiDigit = false := by
      rw [List.any_eq_false]
      intro c hcm
      rcases List.mem_cons.mp hcm with rfl | hm
      · simp [letter_not_digit (hc c (by simp))]
      rcases List.mem_append.mp hm with hm1 | hm1
      · simp [letter_not_digit (hc c (by simp [hm1]))]
      rcases List.mem_cons.mp hm1 with rfl | hm2
      · decide
      · simp [letter_not_digit (hd c hm2)]
    simp [parseA1ToGridRange, matchRowOnly, matchColOnly, hrow, hcol, hnod]

theorem parseA1_std_single (c1 r1 : List Char) (sid : Int)
    (hc1ne : c1 ≠ []) (hc1 : ∀ c ∈ c1, isAsciiLetter c = true)
    (hr1ne : r1 ≠ []) (hr1 : ∀ c ∈ r1, isAsciiDigit c = true) :
    parseA1ToGridRange ⟨c1 ++ r1⟩ sid =
      .ok ⟨sid, some ((digitsToNat r1 : Int) - 1), some ((digitsToNat r1 : Int) - 1 + 1),
        some (colLettersToIndex ⟨c1⟩), some (colLettersToIndex ⟨c1⟩ + 1)⟩ := by
  match c1, hc1ne, r1, hr1ne with
  | x :: c1t, _, d :: r1t, _ =>
    have hxl := hc1 x (by simp)
    have hdd := hr1 d (by simp)
    have hrow : matchRunPair isAsciiDigit (x :: (c1t ++ d :: r1t)) = none :=
      matchRunPair_none_head x (c1t ++ d :: r1t) (letter_not_digit hxl)
    have hcol : matchRunPair isAsciiLetter ((x :: c1t) ++ d :: r1t) = none :=
      matchRunPair_stop_ne_colon (x :: c1t) d r1t hc1 (digit_not_letter hdd)
        (fun hcolon => by rw [hcolon] at hdd; simp [isAsciiDigit] at hdd)
    have hstd := matchStandard_single (x :: c1t) (d :: r1t) (by simp) hc1 (by simp) hr1
    simp only [List.cons_append] at hcol hstd
    simp [parseA1ToGridRange, parseStandardA1, matchRowOnly, matchColOnly, hrow, hcol, hstd]

theorem parseA1_std_pair (c1 r1 c2 r2 : List Char) (sid : Int)
    (hc1ne : c1 ≠ []) (hc1 : ∀ c ∈ c1, isAsciiLetter c = true)
    (hr1ne : r1 ≠ []) (hr1 : ∀ c ∈ r1, isAsciiDigit c = true)
    (hc2ne : c2 ≠ []) (hc2 : ∀ c ∈ c2, isAsciiLetter c = true)
    (hr2ne : r2 ≠ []) (hr2 : ∀ c ∈ r2, isAsciiDigit c = true) :
    parseA1ToGridRange ⟨c1 ++ r1 ++ ':' :: (c2 ++ r2)⟩ sid =
      .ok ⟨sid, some ((digitsToNat r1 : Int) - 1), some (digitsToNat r2 : Int),
        some (colLettersToIndex ⟨c1⟩), some (colLettersToIndex ⟨c2⟩ + 1)⟩ := by
  match c1, hc1ne, r1, hr1ne with
  | x :: c1t, _, d :: r1t, _ =>
    have hxl := hc1 x (by simp)
    have hdd := hr1 d (by simp)
    have hrow : matchRunPair isAsciiDigit
        (x :: (c1t ++ (d :: (r1t ++ ':' :: (c2 ++ r2))))) = none :=
      matchRunPair_none_head x _ (letter_not_digit hxl)
    have hcol := matchRunPair_stop_ne_colon (x :: c1t) d (r1t ++ ':' :: (c2 ++ r2)) hc1
      (digit_not_letter hdd)
      (fun hcolon => by rw [hcolon] at hdd; simp [isAsciiDigit] at hdd)
    have hstd := matchStandard_pair (x :: c1t) (d :: r1t) c2 r2 (by simp) hc1 (by simp) hr1
      hc2ne hc2 hr2ne hr2
    simp only [List.cons_append, List.append_assoc] at hcol hstd
    simp [parseA1ToGridRange, parseStandardA1, matchRowOnly, matchColOnly, hrow, hcol, hstd]

theorem parseA1RangeInclusive_pair (c1 r1 c2 r2 : List Char)
    (hc1ne : c1 ≠ []) (hc1 : ∀ c ∈ c1, isAsciiLetter c = true)
    (hr1ne : r1 ≠ []) (hr1 : ∀ c ∈ r1, isAsciiDigit c = true)
    (hc2ne : c2 ≠ []) (hc2 : ∀ c ∈ c2, isAsciiLetter c = true)
    (hr2ne : r2 ≠ []) (hr2 : ∀ c ∈ r2, isAsciiDigit c = true) :
    parseA1RangeInclusive ⟨c1 ++ r1 ++ ':' :: (c2 ++ r2)⟩ =
      .ok ((digitsToNat r1 : Int) - 1, (digitsToNat r2 : Int) - 1,
        colLettersToIndex ⟨c1⟩, colLettersToIndex ⟨c2⟩) := by
  have hstd := matchStandard_pair c1 r1 c2 r2 hc1ne hc1 hr1ne hr1 hc2ne hc2 hr2ne hr2
  simp only [List.append_assoc] at hstd
  simp [parseA1RangeInclusive, hstd]

theorem parseA1_axis_pairing (s : String) (sid : Int) (g : GridRange)
    (h : parseA1ToGridRange s sid = .ok g) :
    (g.startRowIndex.isSome ↔ g.endRowIndex.isSome) ∧
    (g.startColumnIndex.isSome ↔ g.endColumnIndex.isSome) := by
  unfold parseA1ToGridRange parseStandardA1 at h
  repeat' split at h
  all_goals cases h <;> simp

/-- Counterexample to C5: the reversed whole-row band `"5:3"` is accepted by
the parser and produces `startRowIndex = 4`, `endRowIndex = 3`: an end bound
that is present but SMALLER than its start bound. -/
theorem parseA1_reversed_counterexample :
    parseA1ToGridRange "5:3" 0 = .ok ⟨0, some 4, some 3, none, none⟩ ∧
    ¬ ((4 : Int) ≤ 3) := by
  constructor <;> decide

/-- C5 (amended): every grid range the parser produces represents an
unbounded axis by the absence of BOTH bounds (never a sentinel); on each of
the three accepted shapes the end bound produced is exclusive (one past the
zero-based index of the last addressed row/column); and the end bound is
`≥` the start bound PROVIDED the address's start component does not exceed
its end component — reversed inputs such as `"5:3"` are accepted
unvalidated and yield end < start. (`batchFormat`'s internal `parseA1Range`
instead returns inclusive end bounds, converted to exclusive by `+ 1` where
its requests are built.) -/
theorem parseA1ToGridRange_bounds (sid : Int) :
    (∀ (s : String) (g : GridRange), parseA1ToGridRange s sid = .ok g →
      (g.startRowIndex.isSome ↔ g.endRowIndex.isSome) ∧
      (g.startColumnIndex.isSome ↔ g.endColumnIndex.isSome)) ∧
    (∀ a : List Char, a ≠ [] → (∀ c ∈ a, isAsciiDigit c = true) →
      parseA1ToGridRange ⟨a⟩ sid = .ok ⟨sid, some ((digitsToNat a : Int) - 1),
        some ((digitsToNat a : Int) - 1 + 1), none, none⟩) ∧
    (∀ a b : List Char, a ≠ [] → (∀ c ∈ a, isAsciiDigit c = true) →
      b ≠ [] → (∀ c ∈ b, isAsciiDigit c = true) →
      parseA1ToGridRange ⟨a ++ ':' :: b⟩ sid = .ok ⟨sid,
        some ((digitsToNat a : Int) - 1), some (digitsToNat b : Int), none, none⟩ ∧
      (digitsToNat a ≤ digitsToNat b →
        (digitsToNat a : Int) - 1 ≤ (digitsToNat b : Int) - 1 ∧
        (digitsToNat a : Int) - 1 < (digitsToNat b : Int))) ∧
    (∀ cl : List Char, cl ≠ [] → (∀ c ∈ cl, isAsciiLetter c = true) →
      parseA1ToGridRange ⟨cl⟩ sid = .ok ⟨sid, none, none,
        some (colLettersToIndex ⟨cl⟩), some (colLettersToIndex ⟨cl⟩ + 1)⟩) ∧
    (∀ cl dl : List Char, cl ≠ [] → (∀ c ∈ cl, isAsciiLetter c = true) →
      dl ≠ [] → (∀ c ∈ dl, isAsciiLetter c = true) →
      parseA1ToGridRange ⟨cl ++ ':' :: dl⟩ sid = .ok ⟨sid, none, none,
        some (colLettersToIndex ⟨cl⟩), some (colLettersToIndex ⟨dl⟩ + 1)⟩ ∧
      (colLettersToIndex ⟨cl⟩ ≤ colLettersToIndex ⟨dl⟩ →
        colLettersToIndex ⟨cl⟩ < colLettersToIndex ⟨dl⟩ + 1)) ∧
    (∀ c1 r1 : List Char, c1 ≠ [] → (∀ c ∈ c1, isAsciiLetter c = true) →
      r1 ≠ [] → (∀ c ∈ r1, isAsciiDigit c = true) →
      parseA1ToGridRange ⟨c1 ++ r1⟩ sid = .ok ⟨sid,
        some ((digitsToNat r1 : Int) - 1), some ((digitsToNat r1 : Int) - 1 + 1),
        some (colLettersToIndex ⟨c1⟩), some (colLettersToIndex ⟨c1⟩ + 1)⟩) ∧
    (∀ c1 r1 c2 r2 : List Char, c1 ≠ [] → (∀ c ∈ c1, isAsciiLetter c = true) →
      r1 ≠ [] → (∀ c ∈ r1, isAsciiDigit c = true) →
      c2 ≠ [] → (∀ c ∈ c2, isAsciiLetter c = true) →
      r2 ≠ [] → (∀ c ∈ r2, isAsciiDigit c = true) →
      parseA1ToGridRange ⟨c1 ++ r1 ++ ':' :: (c2 ++ r2)⟩ sid = .ok ⟨sid,
        some ((digitsToNat r1 : Int) - 1), some (digitsToNat r2 : Int),
        some (colLettersToIndex ⟨c1⟩), some (colLettersToIndex ⟨c2⟩ + 1)⟩ ∧
      parseA1RangeInclusive ⟨c1 ++ r1 ++ ':' :: (c2 ++ r2)⟩ =
        .ok ((digitsToNat r1 : Int) - 1, (digitsToNat r2 : Int) - 1,
          colLettersToIndex ⟨c1⟩, colLettersToIndex ⟨c2⟩) ∧
      (digitsToNat r1 ≤ digitsToNat r2 →
        (digitsToNat r1 : Int) - 1 < (digitsToNat r2 : Int))) := by
  refine ⟨fun s g h => parseA1_axis_pairing s sid g h,
    fun a hne ha => parseA1_row_single a sid hne ha,
    fun a b h1 h2 h3 h4 => ⟨parseA1_row_pair a b sid h1 h2 h3 h4, fun hord => by omega⟩,
    fun cl hne hl => parseA1_col_single cl sid hne hl,
    fun cl dl h1 h2 h3 h4 => ⟨parseA1_col_pair cl dl sid h1 h2 h3 h4, fun hord => by omega⟩,
    fun c1 r1 h1 h2 h3 h4 => parseA1_std_single c1 r1 sid h1 h2 h3 h4,
    fun c1 r1 c2 r2 h1 h2 h3 h4 h5 h6 h7 h8 =>
      ⟨parseA1_std_pair c1 r1 c2 r2 sid h1 h2 h3 h4 h5 h6 h7 h8,
       parseA1RangeInclusive_pair c1 r1 c2 r2 h1 h2 h3 h4 h5 h6 h7 h8,
       fun hord => by omega⟩⟩

/-- Witness for C5 (amended) at the spec's own examples `3:5`, `A:C` and
`A1:B2`, plus the pairing property at `A1:B2`. -/
theorem parseA1ToGridRange_bounds_witness :
    parseA1ToGridRange "3:5" 0 = .ok ⟨0, some 2, some 5, none, none⟩ ∧
    parseA1ToGridRange "A:C" 0 = .ok ⟨0, none, none, some 0, some 3⟩ ∧
    parseA1ToGridRange "A1:B2" 0 = .ok ⟨0, some 0, some 2, some 0, some 2⟩ ∧
    (((⟨0, some 0, some 2, some 0, some 2⟩ : GridRange).startRowIndex.isSome ↔
        (⟨0, some 0, some 2, some 0, some 2⟩ : GridRange).endRowIndex.isSome) ∧
      ((⟨0, some 0, some 2, some 0, some 2⟩ : GridRange).startColumnIndex.isSome ↔
        (⟨0, some 0, some 2, some 0, some 2⟩ : GridRange).endColumnIndex.isSome)) :=
  ⟨((parseA1ToGridRange_bounds 0).2.2.1 ['3'] ['5'] (by decide) (by decide) (by decide)
      (by decide)).1,
   ((parseA1ToGridRange_bounds 0).2.2.2.2.1 ['A'] ['C'] (by decide) (by decide) (by decide)
      (by decide)).1,
   ((parseA1ToGridRange_bounds 0).2.2.2.2.2.2 ['A'] ['1'] ['B'] ['2'] (by decide) (by decide)
      (by decide) (by decide) (by decide) (by decide) (by decide) (by decide)).1,
   (parseA1ToGridRange_bounds 0).1 "A1:B2" ⟨0, some 0, some 2, some 0, some 2⟩
     ((parseA1ToGridRange_bounds 0).2.2.2.2.2.2 ['A'] ['1'] ['B'] ['2'] (by decide) (by decide)
      (by decide) (by decide) (by decide) (by decide) (by decide) (by decide)).1⟩

/-- C9 (amended): `colLettersToIndex` itself performs no validation — it
returns an integer for any input (see the counterexample) — but within the
range parser non-letter garbage never reaches it: any range text containing
a character that is neither an ASCII letter nor a digit nor `:` fails
`parseA1ToGridRange` with the invalid-format error before any conversion. -/
theorem parseA1_invalid_on_bad_char (s : String) (sid : Int)
    (h : ∃ c ∈ s.data, isAsciiLetter c = false ∧ isAsciiDigit c = false ∧ c ≠ ':') :
    parseA1ToGridRange s sid = .error (.invalidFormat s) := by
  obtain ⟨c, hc, h1, h2, h3⟩ := h
  have hrow := matchRunPair_none_of_bad (p := isAsciiDigit) s.data c hc h2 h3
  have hcol := matchRunPair_none_of_bad (p := isAsciiLetter) s.data c hc h1 h3
  have hstd := matchStandard_none_of_bad s.data c hc h1 h2 h3
  simp [parseA1ToGridRange, parseStandardA1, matchRowOnly, matchColOnly, hrow, hcol, hstd]

/-- Witness for C9 (amended) at `A$1` (the `$` is rejected by the parser). -/
theorem parseA1_invalid_on_bad_char_witness :
    parseA1ToGridRange "A$1" 0 = .error (.invalidFormat "A$1") :=
  parseA1_invalid_on_bad_char "A$1" 0 (by decide)

/-- Witness for C4 (amended) at a cell format with font size and background
color and at a freeze of two rows. -/
theorem fieldMask_matches_payload_witness :
    batchCellMask ⟨some 12, none, none, none, none, some "FF0000", none, none, none, none⟩ =
      batchPopulatedPaths (batchCellPayload
        ⟨some 12, none, none, none, none, some "FF0000", none, none, none, none⟩) ∧
    freezeMask (some 2) none = freezePopulatedPaths (freezePayload (some 2) none) :=
  ⟨fieldMask_matches_payload.1 _, fieldMask_matches_payload.2.1 _ _⟩
